import Mathlib

/-!
# OpenLightsCore — verification of the playback-and-cue-synchronization engine

Shallow embedding of `src/audio_player.rs` and `src/lights.rs`.

Modelling conventions:
* Rust `f32`/`f64` values are modelled as rationals; every numeric cast the
  source performs (`as u32`, `as i32`) is made explicit, with Rust semantics
  (float-to-int casts truncate toward zero and saturate, int-to-int casts
  wrap).
* The `rodio` sink, file system and GPIO driver are external collaborators:
  their inputs (scanned song lists, cue-file contents, sink position) are
  parameters, and their outputs (actuator calls, applied sink volume) are
  recorded in the state or returned as event lists.
* A Rust `unwrap()` panic is modelled as `Option.none` / `Except.error`.
-/

namespace OpenLights

/-- Rust `as u32` applied to a float (modelled as `ℚ`): truncation toward
zero, saturating — negative values go to `0`, values at or above `2^32`
go to `2^32 - 1`. -/
def castU32 (q : ℚ) : ℕ :=
  if q < 0 then 0 else min ⌊q⌋.toNat (2 ^ 32 - 1)

/-- `set_atomic_float` (audio_player.rs:197): stores `(value * 100.0) as u32`
into the atomic. The model returns the stored `u32`. -/
def set_atomic_float (value : ℚ) : ℕ :=
  castU32 (value * 100)

/-- `get_atomic_float` (audio_player.rs:192): loads the `u32` and divides
by `100.0`. -/
def get_atomic_float (stored : ℕ) : ℚ :=
  (stored : ℚ) / 100

/-- `Song` (audio_player.rs:20). The path is kept abstract as a string;
`duration` is in seconds. Rust `PartialEq` for `Song` compares paths only. -/
structure Song where
  name : String
  artist : String
  path : String
  duration : ℚ
deriving DecidableEq

/-- The transport-relevant state of `AudioPlayer` (audio_player.rs:43).
`song_duration` and `progress` hold the raw `AtomicU32` fixed-point
contents; `sink_volume` records the volume last applied to the rodio sink;
`light_thread_reset` is the scheduler reset request flag. The scheduler
liveness flags (`toggle`/`active`) are modelled separately as a transition
system below. -/
structure PlayerState where
  song_vec : List Song
  playing : Bool
  song_loaded : Bool
  song_duration : ℕ
  song_index : ℕ
  looping : Bool
  millisecond_position : ℕ
  progress : ℕ
  clicked_index : ℕ
  sink_volume : ℚ
  light_thread_reset : Bool
deriving DecidableEq

/-- `AudioPlayer::get_current_song` (audio_player.rs:143): indexes
`song_vec` at `song_index`; the `unwrap` panic on an out-of-range index is
`none`. -/
def get_current_song (s : PlayerState) : Option Song :=
  s.song_vec.get? s.song_index

/-- `AudioPlayer::prepare_song` (audio_player.rs:94): clears the sink,
zeroes the position, publishes the duration, appends the decoded source and
sets `song_loaded`. The kill/start of the light thread acts on the
scheduler system modelled separately. -/
def prepare_song (s : PlayerState) : Option PlayerState :=
  (get_current_song s).map fun song =>
    { s with
      millisecond_position := 0
      song_duration := set_atomic_float song.duration
      song_loaded := true }

/-- `AudioPlayer::play` (audio_player.rs:113). The source recurses after
`prepare_song`; since `prepare_song` always sets `song_loaded`, the
recursive call takes the loaded branch, which is unfolded here. -/
def play (s : PlayerState) : Option PlayerState :=
  if s.song_loaded then some { s with playing := true }
  else (prepare_song s).map fun s1 => { s1 with playing := true }

/-- `AudioPlayer::pause` (audio_player.rs:123). -/
def pause (s : PlayerState) : PlayerState :=
  { s with playing := false }

/-- `AudioPlayer::get_song_index` (audio_player.rs:128): position of the
first queue entry equal to `song`, where `Song` equality is path equality. -/
def get_song_index (s : PlayerState) (song : Song) : Option ℕ :=
  s.song_vec.findIdx? fun x => x.path == song.path

/-- `AudioPlayer::shuffle` (audio_player.rs:132). The `fastrand::shuffle`
permutation is modelled by passing the permuted queue; theorems constrain
it to be a permutation of the old queue. -/
def shuffle (s : PlayerState) (shuffled : List Song) : Option PlayerState :=
  play { s with song_vec := shuffled, song_index := 0, song_loaded := false }

/-- `AudioPlayer::set_volume` (audio_player.rs:139): forwards the value to
`sink.set_volume` unchanged. -/
def set_volume (s : PlayerState) (new_volume : ℚ) : PlayerState :=
  { s with sink_volume := new_volume }

/-- `AudioPlayer::song_override` (audio_player.rs:148). -/
def song_override (s : PlayerState) (song : Song) : Option PlayerState := do
  let s1 := pause s
  let index ← get_song_index s1 song
  play { s1 with song_index := index, song_loaded := false }

/-- `AudioPlayer::next_song` (audio_player.rs:156): pause, advance the
index by one, wrap to `0` at the end of the queue, clear `song_loaded`,
play. -/
def next_song (s : PlayerState) : Option PlayerState :=
  let s1 := pause s
  let new_index := s1.song_index + 1
  let s2 :=
    { s1 with song_index := if new_index ≥ s1.song_vec.length then 0 else new_index }
  play { s2 with song_loaded := false }

/-- `AudioPlayer::set_position` (audio_player.rs:169): pause, seek the sink
(external), play, store the millisecond position, and request a scheduler
reset when the target time is zero. `time_ms` is the target in
milliseconds. -/
def set_position (s : PlayerState) (time_ms : ℕ) : Option PlayerState :=
  (play (pause s)).map fun s1 =>
    let s2 := { s1 with millisecond_position := time_ms }
    if time_ms = 0 then { s2 with light_thread_reset := true } else s2

/-- `AudioPlayer::toggle_looping` (audio_player.rs:181). -/
def toggle_looping (s : PlayerState) : PlayerState :=
  { s with looping := !s.looping }

/-- `AudioPlayer::load_songs_from_playlist` (audio_player.rs:185): replaces
`song_vec` with the directory scan result (`gather_songs_from_path`,
modelled by its output `scanned`). Nothing else is written. -/
def load_songs_from_playlist (s : PlayerState) (scanned : List Song) : PlayerState :=
  { s with song_vec := scanned }

/-- Worker `Volume` arm (audio_player.rs:224): reads the `AtomicI8` volume,
divides by `100.0`, applies it via `set_volume`. -/
def volume_action (s : PlayerState) (volume_i8 : ℤ) : PlayerState :=
  set_volume s ((volume_i8 : ℚ) / 100)

/-- Worker `LoadFromPlaylist` arm (audio_player.rs:241): loads the playlist
then stores `0` into `clicked_index`. -/
def load_from_playlist_action (s : PlayerState) (scanned : List Song) : PlayerState :=
  { load_songs_from_playlist s scanned with clicked_index := 0 }

/-- Worker tick position/progress publish (audio_player.rs:250): when
playing, store the sink position in milliseconds, then store
`seconds / duration` (with `seconds = pos / 1000`, integer division) as the
progress fixed-point. -/
def tick_publish (s : PlayerState) (pos : ℕ) : PlayerState :=
  if s.playing then
    let seconds : ℕ := pos / 1000
    { s with
      millisecond_position := pos
      progress := set_atomic_float ((seconds : ℚ) / get_atomic_float s.song_duration) }
  else s

/-! ## Cue store (lights.rs) -/

/-- `LightType` (lights.rs:94). -/
inductive LightType
  | on
  | off
deriving DecidableEq

/-- `LightData` (lights.rs:111): one cue event. -/
structure LightData where
  timestamp : ℤ
  light_type : LightType
deriving DecidableEq

/-- `ChannelData` (lights.rs:117): a channel group with its event list and
cursor. -/
structure ChannelData where
  channels : List ℤ
  data : List LightData
  index : ℕ
deriving DecidableEq

/-- Digit run of Rust integer parsing: accumulates decimal digits, fails on
any non-digit character. -/
def parseDigits (cs : List Char) : Option ℕ :=
  cs.foldl
    (fun acc c =>
      acc.bind fun n => if c.isDigit then some (n * 10 + (c.toNat - 48)) else none)
    (some 0)

/-- Rust `str::parse` integer grammar: optional sign followed by a
non-empty digit run; anything else is `Err`. -/
def parseIntCore : List Char → Option ℤ
  | [] => none
  | c :: rest =>
    if c = '-' then
      if rest = [] then none else (parseDigits rest).map fun n => -(n : ℤ)
    else if c = '+' then
      if rest = [] then none else (parseDigits rest).map fun n => (n : ℤ)
    else (parseDigits (c :: rest)).map fun n => (n : ℤ)

/-- `str::parse::<i32>` (used at lights.rs:142): parse and range-check
against `i32`, overflow is `Err`. -/
def parse_i32 (s : String) : Option ℤ :=
  (parseIntCore s.toList).bind fun n =>
    if -(2 ^ 31) ≤ n ∧ n < 2 ^ 31 then some n else none

/-- `str::parse::<i8>` (used at lights.rs:169): parse and range-check
against `i8`. Channel values are widened to `ℤ` in the model. -/
def parse_i8 (cs : List Char) : Option ℤ :=
  (parseIntCore cs).bind fun n =>
    if -(2 ^ 7) ≤ n ∧ n < 2 ^ 7 then some n else none

/-- Rust `str::trim`: strip leading and trailing whitespace. -/
def trimChars (cs : List Char) : List Char :=
  ((cs.dropWhile Char.isWhitespace).reverse.dropWhile Char.isWhitespace).reverse

/-- Rust `str::split(',')`: the comma-separated fields, in order; an empty
input yields one empty field. -/
def splitComma : List Char → List (List Char)
  | [] => [[]]
  | c :: rest =>
    match splitComma rest with
    | [] => [[]]
    | t :: ts => if c = ',' then [] :: t :: ts else (c :: t) :: ts

/-- `parse_channels` (lights.rs:166): split the key on commas, trim, parse
each token as `i8`, dropping failures. -/
def parse_channels (channels_str : String) : List ℤ :=
  ((splitComma channels_str.toList).map trimChars).filterMap parse_i8

/-- The cue event list ordering used at lights.rs:153
(`sort_by_key(|ld| ld.timestamp)`): Rust `slice::sort_by_key` is a stable
sort, and a stable sort by a total preorder is a unique function, so it is
modelled by stable insertion sort. -/
def sortLightData (lds : List LightData) : List LightData :=
  lds.insertionSort fun a b => a.timestamp ≤ b.timestamp

instance : IsTotal LightData fun a b => a.timestamp ≤ b.timestamp :=
  ⟨fun a b => le_total a.timestamp b.timestamp⟩

instance : IsTrans LightData fun a b => a.timestamp ≤ b.timestamp :=
  ⟨fun _ _ _ hab hbc => le_trans hab hbc⟩

/-- Contents of the derived cue file as seen by `gather_light_data`:
either serde_json fails to deserialize it into `Data` (`malformed`), or it
is a flat map from channel-key to a timestamp-string → type-code map
(HashMap iteration order is modelled by the list order). -/
inductive CueFile
  | malformed
  | valid (fields : List (String × List (String × ℤ)))

/-- Inner loop of `gather_light_data` (lights.rs:141): parse each timestamp
string (`unwrap` panic on failure is `Except.error`), normalize the type
code (`0` ↦ off, `1` ↦ on, anything else ↦ off). -/
def gatherEvents : List (String × ℤ) → Except Unit (List LightData)
  | [] => .ok []
  | (timestamp_str, light_type_pre) :: rest =>
    match parse_i32 timestamp_str with
    | none => .error ()
    | some timestamp =>
      (gatherEvents rest).map fun tail =>
        { timestamp := timestamp
          light_type :=
            if light_type_pre = 0 then .off
            else if light_type_pre = 1 then .on
            else .off } :: tail

/-- Outer loop of `gather_light_data` (lights.rs:139): per channel-group,
build the event list, sort it by timestamp, attach the parsed channels and
a zero cursor; a panic while parsing any group propagates. -/
def gatherChannels : List (String × List (String × ℤ)) → Except Unit (List ChannelData)
  | [] => .ok []
  | (channel, light_data) :: rest =>
    match gatherEvents light_data with
    | .error e => .error e
    | .ok events =>
      match gatherChannels rest with
      | .error e => .error e
      | .ok tail =>
        .ok ({ channels := parse_channels channel
               data := sortLightData events
               index := 0 } :: tail)

/-- `gather_light_data` (lights.rs:126). `file = none` models `File::open`
failing (absent cue file), which returns an empty vector; a malformed file
or unparseable timestamp hits an `unwrap` (`Except.error`). -/
def gather_light_data (file : Option CueFile) : Except Unit (List ChannelData) :=
  match file with
  | none => .ok []
  | some .malformed => .error ()
  | some (.valid fields) => gatherChannels fields

/-! ## Cue scheduler loop (lights.rs:43) -/

/-- One actuator call: `interface_gpio` on the pin of `channel` with the
given type (lights.rs:178). -/
structure Actuation where
  channel : ℤ
  light_type : LightType
deriving DecidableEq

/-- Rust `as i32` applied to a `u64` (lights.rs:62): wrap modulo `2^32`
into `[-2^31, 2^31)`. -/
def castI32ofU64 (n : ℕ) : ℤ :=
  if n % 2 ^ 32 < 2 ^ 31 then (n % 2 ^ 32 : ℤ) else (n % 2 ^ 32 : ℤ) - 2 ^ 32

/-- `all_off` (lights.rs:205): one off actuation per GPIO pin, pins keyed
`0 .. pins - 1`. -/
def all_off (pins : ℕ) : List Actuation :=
  (List.range pins).map fun i => { channel := Int.ofNat i, light_type := .off }

/-- Reset handling (lights.rs:51): rewind every channel group cursor to
zero. -/
def resetChannels (ld : List ChannelData) : List ChannelData :=
  ld.map fun cd => { cd with index := 0 }

/-- Per-group firing step (lights.rs:61): if the event at the cursor exists
and its timestamp is at most the position, actuate every channel of the
group with the event type and advance the cursor by one. -/
def fireChannel (pos : ℤ) (cd : ChannelData) : ChannelData × List Actuation :=
  match cd.data.get? cd.index with
  | some target =>
    if target.timestamp ≤ pos then
      ({ cd with index := cd.index + 1 },
        cd.channels.map fun ch => { channel := ch, light_type := target.light_type })
    else (cd, [])
  | none => (cd, [])

/-- The `for channel_data in &mut light_data` loop (lights.rs:60). -/
def fireAll (pos : ℤ) : List ChannelData → List ChannelData × List Actuation
  | [] => ([], [])
  | cd :: rest =>
    let fired := fireChannel pos cd
    let tail := fireAll pos rest
    (fired.1 :: tail.1, fired.2 ++ tail.2)

/-- One iteration of the scheduler loop body (lights.rs:43), after the
toggle check: consume a pending reset request (rewinding cursors and
sweeping all pins off), then fire due events. `ms` is the value read from
`millisecond_position`. Returns the new reset flag, the new channel data
and the actuations emitted this tick, in order. -/
def lightIteration (resetFlag : Bool) (ms : ℕ) (pins : ℕ) (ld : List ChannelData) :
    Bool × List ChannelData × List Actuation :=
  let afterReset :=
    if resetFlag then (false, resetChannels ld, all_off pins)
    else (resetFlag, ld, ([] : List Actuation))
  let fired := fireAll (castI32ofU64 ms) afterReset.2.1
  (afterReset.1, fired.1, afterReset.2.2 ++ fired.2)

/-- Repeated scheduler iterations: each schedule entry is the reset flag
observed and the millisecond position read on that tick. The trace is the
concatenation of the per-tick actuation lists. -/
def runLights (pins : ℕ) : List (Bool × ℕ) → List ChannelData → List ChannelData × List Actuation
  | [], ld => (ld, [])
  | (flag, ms) :: rest, ld =>
    let step := lightIteration flag ms pins ld
    let tail := runLights pins rest step.2.1
    (tail.1, step.2.2 ++ tail.2)

/-! ## Scheduler arm/kill coordination (lights.rs:36, audio_player.rs:107)

`prepare_song` runs `kill_light_thread(); start_light_thread(...)` on the
worker thread while the previous scheduler thread runs concurrently. The
interleaving of these two threads over the shared `toggle`/`active` flags
is modelled as a transition system. -/

/-- Program counter of the worker thread through
`kill_light_thread` (audio_player.rs:107) and the arming prefix of
`start_light_thread` (lights.rs:36) for a non-empty cue set:
`m0` = about to load `active`; `m1` = saw `active` true, about to store
`toggle := true`; `m2` = busy-wait loop testing `toggle`; `m3` = passed the
wait, about to store `active := true`; `m4` = new scheduler thread
spawned and running. -/
inductive MainPC
  | m0
  | m1
  | m2
  | m3
  | m4
deriving DecidableEq

/-- Program counter of the previous scheduler thread (lights.rs:43):
`a0` = in its loop (may actuate); `a1` = observed `toggle`, about to store
`active := false`; `a2` = about to store `toggle := false`;
`exited` = broke out of the loop. -/
inductive OldPC
  | a0
  | a1
  | a2
  | exited
deriving DecidableEq

/-- Shared flags plus both program counters. -/
structure SchedState where
  toggle : Bool
  active : Bool
  m : MainPC
  a : OldPC
deriving DecidableEq

/-- Interleaving semantics: each constructor is one atomic load or store of
the source, by one of the two threads. -/
inductive SchedStep : SchedState → SchedState → Prop
  | kill_seen_active {s : SchedState} :
      s.m = .m0 → s.active = true → SchedStep s { s with m := .m1 }
  | kill_seen_inactive {s : SchedState} :
      s.m = .m0 → s.active = false → SchedStep s { s with m := .m2 }
  | kill_store_toggle {s : SchedState} :
      s.m = .m1 → SchedStep s { s with toggle := true, m := .m2 }
  | arm_wait {s : SchedState} :
      s.m = .m2 → s.toggle = true → SchedStep s s
  | arm_pass {s : SchedState} :
      s.m = .m2 → s.toggle = false → SchedStep s { s with m := .m3 }
  | arm_activate {s : SchedState} :
      s.m = .m3 → SchedStep s { s with active := true, m := .m4 }
  | old_tick {s : SchedState} :
      s.a = .a0 → s.toggle = false → SchedStep s s
  | old_see_toggle {s : SchedState} :
      s.a = .a0 → s.toggle = true → SchedStep s { s with a := .a1 }
  | old_clear_active {s : SchedState} :
      s.a = .a1 → SchedStep s { s with active := false, a := .a2 }
  | old_clear_toggle {s : SchedState} :
      s.a = .a2 → SchedStep s { s with toggle := false, a := .exited }

/-- Initial states of one kill-then-arm episode: the worker is about to run
`kill_light_thread`, no kill is pending (`toggle` false), and the previous
scheduler thread is either running (with `active` true, as it set on
spawn) or already exited (having cleared `active`). -/
def SchedInit (s : SchedState) : Prop :=
  s.m = .m0 ∧ s.toggle = false ∧
    ((s.a = .a0 ∧ s.active = true) ∨ (s.a = .exited ∧ s.active = false))

/-- Reachability under the interleaving semantics. -/
inductive SchedReachable : SchedState → Prop
  | init {s : SchedState} : SchedInit s → SchedReachable s
  | step {s t : SchedState} : SchedReachable s → SchedStep s t → SchedReachable t

/-- Inductive invariant for the kill-then-arm episode. -/
def SchedInv (s : SchedState) : Prop :=
  (s.m = .m0 →
    s.toggle = false ∧ (s.active = true → s.a = .a0) ∧ (s.active = false → s.a = .exited)) ∧
  (s.m = .m1 → s.toggle = false ∧ s.a = .a0) ∧
  (s.m = .m2 → s.a = .exited ∨ s.toggle = true) ∧
  (s.m = .m3 → s.a = .exited) ∧
  (s.m = .m4 → s.a = .exited)

/-! ## Concrete data used to instantiate the theorems -/

/-- A concrete track. -/
def songA : Song :=
  { name := "a", artist := "x", path := "pl/a.wav", duration := 1 }

/-- A second concrete track with a different path. -/
def songB : Song :=
  { name := "b", artist := "y", path := "pl/b.wav", duration := 2 }

/-- A concrete engine state: loaded and playing, with a one-track queue,
`song_index = 1` and a published duration of one second. -/
def exPlayer : PlayerState :=
  { song_vec := [songA]
    playing := true
    song_loaded := true
    song_duration := 100
    song_index := 1
    looping := false
    millisecond_position := 500
    progress := 0
    clicked_index := 3
    sink_volume := 1
    light_thread_reset := false }

/-- The state `set_position exPlayer 0` produces. -/
def exSeek : PlayerState :=
  { exPlayer with playing := true, millisecond_position := 0, light_thread_reset := true }

/-- A concrete well-formed cue file content: channel group "1,2" with an
on event at 0 ms and an off event at 5000 ms, listed out of order. -/
def exCueFields : List (String × List (String × ℤ)) :=
  [("1,2", [("5000", 0), ("0", 1)])]

/-- The channel group `gather_light_data` produces from `exCueFields`. -/
def exChannelGroup : ChannelData :=
  { channels := [1, 2]
    data := [{ timestamp := 0, light_type := .on },
             { timestamp := 5000, light_type := .off }]
    index := 0 }

/-- A concrete channel group with cursor zero. -/
def exGroup : ChannelData :=
  { channels := [1], data := [], index := 0 }

/-- The same channel group with an advanced cursor. -/
def exGroupMoved : ChannelData :=
  { exGroup with index := 3 }

/-- The public Playback Engine operations of audio_player.rs, with the
external inputs of `shuffle` (the permutation) and `song_override` (the
clicked song) as constructor arguments. -/
inductive TransportOp
  | playOp
  | pauseOp
  | shuffleOp (shuffled : List Song)
  | nextOp
  | overrideOp (song : Song)
  | seekOp (time_ms : ℕ)
  | loopOp

/-- Dispatch of a transport operation, `none` when a source `unwrap`
panics. -/
def applyOp : TransportOp → PlayerState → Option PlayerState
  | .playOp, s => play s
  | .pauseOp, s => some (pause s)
  | .shuffleOp shuffled, s => shuffle s shuffled
  | .nextOp, s => next_song s
  | .overrideOp song, s => song_override s song
  | .seekOp time_ms, s => set_position s time_ms
  | .loopOp, s => some (toggle_looping s)

/-- The Transport State invariant `playing ⇒ loaded`. -/
def PlayingImpliesLoaded (s : PlayerState) : Prop :=
  s.playing = true → s.song_loaded = true

/-! ## Theorems -/

/-- Rounding behavior of the fixed-point store/load pair on in-range
nonnegative values. -/
theorem get_set_atomic_float_eq {v : ℚ} (hv : 0 ≤ v) (hlt : v * 100 < 2 ^ 32) :
    get_atomic_float (set_atomic_float v) = (⌊v * 100⌋ : ℚ) / 100 := by
  have h0 : 0 ≤ v * 100 := by positivity
  have hfl0 : 0 ≤ ⌊v * 100⌋ := Int.floor_nonneg.mpr h0
  have hflt : ⌊v * 100⌋ < (2 ^ 32 : ℤ) := Int.floor_lt.mpr (by exact_mod_cast hlt)
  have hmin : min ⌊v * 100⌋.toNat (2 ^ 32 - 1) = ⌊v * 100⌋.toNat :=
    min_eq_left (by omega)
  have hcast : ((⌊v * 100⌋.toNat : ℕ) : ℚ) = ((⌊v * 100⌋ : ℤ) : ℚ) := by
    exact_mod_cast congrArg (Int.cast : ℤ → ℚ) (Int.toNat_of_nonneg hfl0)
  unfold get_atomic_float set_atomic_float castU32
  rw [if_neg (not_lt.mpr h0), hmin, hcast]

/-- Claim C10: published float values are stored as fixed-point hundredths
in a 32-bit unsigned atomic — for every `v ≥ 0` with `v * 100 < 2^32`,
reading back a stored value truncates it to a resolution of `0.01`:
`get_atomic_float (set_atomic_float v) = ⌊v * 100⌋ / 100`. -/
theorem atomic_float_roundtrip (v : ℚ) (hv : 0 ≤ v) (hlt : v * 100 < 2 ^ 32) :
    get_atomic_float (set_atomic_float v) = (⌊v * 100⌋ : ℚ) / 100 :=
  get_set_atomic_float_eq hv hlt

/-- Witness for C10 at `v = 3/2`. -/
theorem atomic_float_roundtrip_check :
    get_atomic_float (set_atomic_float (3 / 2)) = (⌊(3 / 2 : ℚ) * 100⌋ : ℚ) / 100 :=
  atomic_float_roundtrip (3 / 2) (by norm_num) (by norm_num)

/-- Claim C6 counterexample: `set_volume` does not clamp — at input `2`
the volume applied to the sink is `2`, outside `[0, 1]`. -/
theorem set_volume_not_clamped :
    (set_volume exPlayer 2).sink_volume = 2 ∧ ¬(set_volume exPlayer 2).sink_volume ≤ 1 := by
  refine ⟨rfl, ?_⟩
  show ¬(2 : ℚ) ≤ 1
  norm_num

/-- Claim C6 amended: `set_volume` forwards its input fraction to the sink
unchanged, with no clamping; the applied volume equals the input for every
input. -/
theorem set_volume_applies_input (s : PlayerState) (v : ℚ) :
    (set_volume s v).sink_volume = v := rfl

/-- Claim C1 counterexample: from a prior state with `song_index = 1` and
`song_loaded = true`, `load_songs_from_playlist` replaces the queue but
neither resets the current index to `0` nor marks the engine not-loaded. -/
theorem load_playlist_not_resetting :
    (load_songs_from_playlist exPlayer [songB]).song_vec = [songB] ∧
    ¬((load_songs_from_playlist exPlayer [songB]).song_index = 0 ∧
      (load_songs_from_playlist exPlayer [songB]).song_loaded = false) := by
  refine ⟨rfl, fun h => ?_⟩
  exact absurd h.1 (by decide)

/-- Claim C1 amended: `load_songs_from_playlist` replaces the Track Queue
with the scanned tracks and leaves `song_index` and `song_loaded`
unchanged; the worker's LoadFromPlaylist arm additionally resets the
clicked index (the UI selection), not the current song index, to `0`. -/
theorem load_playlist_behavior (s : PlayerState) (scanned : List Song) :
    (load_from_playlist_action s scanned).song_vec = scanned ∧
    (load_from_playlist_action s scanned).song_index = s.song_index ∧
    (load_from_playlist_action s scanned).song_loaded = s.song_loaded ∧
    (load_from_playlist_action s scanned).clicked_index = 0 :=
  ⟨rfl, rfl, rfl, rfl⟩

/-- Claim C9: `play()` is idempotent while already playing — in every state
with `song_loaded = true` and `playing = true`, `play` returns the state
unchanged. -/
theorem play_idempotent (s : PlayerState) (hl : s.song_loaded = true) (hp : s.playing = true) :
    play s = some s := by
  cases s
  simp_all [play]

/-- Witness for C9 at the concrete loaded-and-playing state `exPlayer`. -/
theorem play_idempotent_check : play exPlayer = some exPlayer :=
  play_idempotent exPlayer rfl rfl

/-- Claim C5 counterexample: with the current track's published duration
1.0 s and the sink reporting position 2000 ms (past the duration), the
worker tick publishes progress 2.0 — not a fraction in [0, 1]. -/
theorem progress_exceeds_one :
    1 < get_atomic_float (tick_publish exPlayer 2000).progress := by
  norm_num [tick_publish, exPlayer, set_atomic_float, get_atomic_float, castU32]
  norm_num [show Int.toNat 200 = 200 from rfl]

/-- Claim C5 amended: the tick publishes the unclamped ratio of elapsed
whole seconds to the published duration, truncated to hundredths; the
published progress lies in [0, 1] whenever the published duration is
positive and the elapsed whole seconds do not exceed it, and can exceed 1
once the reported position passes the duration. -/
theorem progress_in_unit_interval (s : PlayerState) (pos : ℕ)
    (hplay : s.playing = true)
    (hd : 0 < get_atomic_float s.song_duration)
    (hle : ((pos / 1000 : ℕ) : ℚ) ≤ get_atomic_float s.song_duration) :
    0 ≤ get_atomic_float (tick_publish s pos).progress ∧
      get_atomic_float (tick_publish s pos).progress ≤ 1 := by
  have hx0 : 0 ≤ ((pos / 1000 : ℕ) : ℚ) / get_atomic_float s.song_duration := by positivity
  have hx1 : ((pos / 1000 : ℕ) : ℚ) / get_atomic_float s.song_duration ≤ 1 :=
    (div_le_one hd).mpr hle
  have hlt : ((pos / 1000 : ℕ) : ℚ) / get_atomic_float s.song_duration * 100 < 2 ^ 32 := by
    nlinarith
  have hprog : (tick_publish s pos).progress =
      set_atomic_float (((pos / 1000 : ℕ) : ℚ) / get_atomic_float s.song_duration) := by
    simp [tick_publish, hplay]
  rw [hprog, get_set_atomic_float_eq hx0 hlt]
  have hf0 : (0 : ℤ) ≤ ⌊((pos / 1000 : ℕ) : ℚ) / get_atomic_float s.song_duration * 100⌋ :=
    Int.floor_nonneg.mpr (by positivity)
  have hf1 : ⌊((pos / 1000 : ℕ) : ℚ) / get_atomic_float s.song_duration * 100⌋ ≤ 100 := by
    have h100 : ((pos / 1000 : ℕ) : ℚ) / get_atomic_float s.song_duration * 100 ≤ 100 := by
      nlinarith
    calc ⌊((pos / 1000 : ℕ) : ℚ) / get_atomic_float s.song_duration * 100⌋
        ≤ ⌊(100 : ℚ)⌋ := Int.floor_le_floor h100
      _ = 100 := by norm_num
  constructor
  · positivity
  · rw [div_le_one (by norm_num : (0 : ℚ) < 100)]
    exact_mod_cast hf1

/-- Witness for the amended C5 at `exPlayer` (published duration 1.0 s)
and position 500 ms. -/
theorem progress_in_unit_interval_check :
    0 ≤ get_atomic_float (tick_publish exPlayer 500).progress ∧
      get_atomic_float (tick_publish exPlayer 500).progress ≤ 1 :=
  progress_in_unit_interval exPlayer 500 rfl
    (by norm_num [exPlayer, get_atomic_float])
    (by norm_num [exPlayer, get_atomic_float])

/-- After a successful `play`, the engine is loaded and playing. -/
theorem play_loaded_playing {s t : PlayerState} (h : play s = some t) :
    t.song_loaded = true ∧ t.playing = true := by
  unfold play at h
  by_cases hl : s.song_loaded = true
  · rw [if_pos hl] at h
    cases h
    exact ⟨hl, rfl⟩
  · rw [if_neg hl] at h
    obtain ⟨u, hu, ht⟩ := Option.map_eq_some'.mp h
    subst ht
    unfold prepare_song at hu
    obtain ⟨song, _, hu2⟩ := Option.map_eq_some'.mp hu
    subst hu2
    exact ⟨rfl, rfl⟩

/-- Claim C7: the invariant `playing ⇒ loaded` holds after every public
Playback Engine operation that completes, whenever it held before. -/
theorem transport_preserves_invariant (op : TransportOp) (s t : PlayerState)
    (hinv : PlayingImpliesLoaded s) (h : applyOp op s = some t) :
    PlayingImpliesLoaded t := by
  cases op with
  | playOp => exact fun _ => (play_loaded_playing h).1
  | pauseOp =>
    simp only [applyOp, Option.some.injEq] at h
    subst h
    intro hp
    simp [pause] at hp
  | shuffleOp shuffled =>
    unfold applyOp shuffle at h
    exact fun _ => (play_loaded_playing h).1
  | nextOp =>
    unfold applyOp next_song at h
    exact fun _ => (play_loaded_playing h).1
  | overrideOp song =>
    unfold applyOp song_override at h
    simp only [bind, Option.bind_eq_some] at h
    obtain ⟨idx, _, hplay⟩ := h
    exact fun _ => (play_loaded_playing hplay).1
  | seekOp time_ms =>
    unfold applyOp set_position at h
    obtain ⟨u, hu, ht⟩ := Option.map_eq_some'.mp h
    subst ht
    intro _
    have hl := (play_loaded_playing hu).1
    split <;> exact hl
  | loopOp =>
    simp only [applyOp, Option.some.injEq] at h
    subst h
    intro hp
    exact hinv hp

/-- Witness for C7: the invariant is preserved by `pause` from the
concrete state `exPlayer`. -/
theorem transport_preserves_invariant_check : PlayingImpliesLoaded (pause exPlayer) :=
  transport_preserves_invariant .pauseOp exPlayer (pause exPlayer) (fun _ => rfl) rfl

/-- A timestamp string the integer parser rejects makes the event-list
build panic. -/
theorem gatherEvents_error {evs : List (String × ℤ)} {ts : String} {code : ℤ}
    (hmem : (ts, code) ∈ evs) (hbad : parse_i32 ts = none) :
    gatherEvents evs = .error () := by
  induction evs with
  | nil => cases hmem
  | cons e rest ih =>
    obtain ⟨ets, ecode⟩ := e
    rcases List.mem_cons.mp hmem with heq | hmem2
    · cases heq
      simp [gatherEvents, hbad]
    · unfold gatherEvents
      cases hp : parse_i32 ets with
      | none => rfl
      | some t => rw [ih hmem2]; rfl

/-- A panicking group makes the whole channel build panic. -/
theorem gatherChannels_error {fields : List (String × List (String × ℤ))}
    {channel : String} {evs : List (String × ℤ)}
    (hmem : (channel, evs) ∈ fields) (herr : gatherEvents evs = .error ()) :
    gatherChannels fields = .error () := by
  induction fields with
  | nil => cases hmem
  | cons f rest ih =>
    obtain ⟨fch, fevs⟩ := f
    rcases List.mem_cons.mp hmem with heq | hmem2
    · cases heq
      simp [gatherChannels, herr]
    · unfold gatherChannels
      cases he : gatherEvents fevs with
      | error e => rfl
      | ok events => rw [ih hmem2]

/-- Claim C2 counterexample: a cue file with the non-integer timestamp
string "abc" makes `gather_light_data` panic (modelled as `Except.error`)
instead of returning an empty CueSet. -/
theorem cue_load_panics_on_bad_timestamp :
    gather_light_data (some (.valid [("1", [("abc", 1)])])) = .error () ∧
    gather_light_data (some (.valid [("1", [("abc", 1)])])) ≠ .ok [] :=
  ⟨rfl, fun h => Except.noConfusion h⟩

/-- Claim C2 amended: an absent cue file yields an empty CueSet with no
error, but a malformed file — an unparseable JSON structure or any
non-integer timestamp string — makes the load panic rather than return an
empty CueSet. -/
theorem cue_load_absent_vs_malformed :
    gather_light_data none = .ok [] ∧
    gather_light_data (some .malformed) = .error () ∧
    ∀ fields channel evs ts code, (channel, evs) ∈ fields → (ts, code) ∈ evs →
      parse_i32 ts = none → gather_light_data (some (.valid fields)) = .error () :=
  ⟨rfl, rfl, fun _ _ _ _ _ h1 h2 h3 => gatherChannels_error h1 (gatherEvents_error h2 h3)⟩

/-- Witness for the amended C2 at a concrete one-group cue file whose
only timestamp is "abc". -/
theorem cue_load_absent_vs_malformed_check :
    gather_light_data (some (.valid [("1", [("abc", 1)])])) = .error () :=
  cue_load_absent_vs_malformed.2.2 [("1", [("abc", 1)])] "1" [("abc", 1)] "abc" 1
    (List.mem_singleton.mpr rfl) (List.mem_singleton.mpr rfl) (by decide)

/-- The sort used on each event list produces a timestamp-ascending
list. -/
theorem sortLightData_sorted (lds : List LightData) :
    List.Sorted (fun a b : LightData => a.timestamp ≤ b.timestamp) (sortLightData lds) :=
  List.sorted_insertionSort _ lds

/-- Every group a successful channel build returns carries a sorted event
list. -/
theorem gatherChannels_sorted {fields : List (String × List (String × ℤ))}
    {l : List ChannelData} (h : gatherChannels fields = .ok l) :
    ∀ cd ∈ l, List.Sorted (fun a b : LightData => a.timestamp ≤ b.timestamp) cd.data := by
  induction fields generalizing l with
  | nil =>
    cases h
    simp
  | cons f rest ih =>
    obtain ⟨channel, light_data⟩ := f
    unfold gatherChannels at h
    cases he : gatherEvents light_data with
    | error e =>
      rw [he] at h
      exact Except.noConfusion h
    | ok events =>
      rw [he] at h
      cases hr : gatherChannels rest with
      | error e =>
        rw [hr] at h
        exact Except.noConfusion h
      | ok tail =>
        rw [hr] at h
        cases h
        intro cd hcd
        rcases List.mem_cons.mp hcd with heq | hmem
        · subst heq
          exact sortLightData_sorted events
        · exact ih hr cd hmem

/-- Claim C8: for every well-formed cue file (one on which the load
succeeds), every per-channel-group event list `gather_light_data` produces
is sorted ascending by timestamp, regardless of the order of entries in
the file. -/
theorem cue_events_sorted (file : Option CueFile) (l : List ChannelData)
    (h : gather_light_data file = .ok l) :
    ∀ cd ∈ l, List.Sorted (fun a b : LightData => a.timestamp ≤ b.timestamp) cd.data := by
  match file with
  | none =>
    cases h
    simp
  | some .malformed => exact Except.noConfusion h
  | some (.valid fields) => exact gatherChannels_sorted h

/-- Witness for C8 at `exCueFields`, whose events are listed out of
order. -/
theorem cue_events_sorted_check :
    List.Sorted (fun a b : LightData => a.timestamp ≤ b.timestamp) exChannelGroup.data :=
  cue_events_sorted (some (.valid exCueFields)) [exChannelGroup] rfl exChannelGroup
    (List.mem_singleton.mpr rfl)

/-- The inductive invariant is preserved by every step of the
interleaving. -/
theorem sched_inv_step {s t : SchedState} (hinv : SchedInv s) (hstep : SchedStep s t) :
    SchedInv t := by
  obtain ⟨i0, i1, i2, i3, i4⟩ := hinv
  cases hstep with
  | kill_seen_active hm ha =>
    refine ⟨fun hm' => ?_, fun hm' => ?_, fun hm' => ?_, fun hm' => ?_, fun hm' => ?_⟩ <;>
      simp_all
  | kill_seen_inactive hm ha =>
    refine ⟨fun hm' => ?_, fun hm' => ?_, fun hm' => ?_, fun hm' => ?_, fun hm' => ?_⟩ <;>
      simp_all
  | kill_store_toggle hm =>
    refine ⟨fun hm' => ?_, fun hm' => ?_, fun hm' => ?_, fun hm' => ?_, fun hm' => ?_⟩ <;>
      simp_all
  | arm_wait hm ht => exact ⟨i0, i1, i2, i3, i4⟩
  | arm_pass hm ht =>
    have hex : s.a = .exited := by
      rcases i2 hm with h | h
      · exact h
      · simp_all
    refine ⟨fun hm' => ?_, fun hm' => ?_, fun hm' => ?_, fun hm' => ?_, fun hm' => ?_⟩ <;>
      simp_all
  | arm_activate hm =>
    refine ⟨fun hm' => ?_, fun hm' => ?_, fun hm' => ?_, fun hm' => ?_, fun hm' => ?_⟩ <;>
      simp_all
  | old_tick ha ht => exact ⟨i0, i1, i2, i3, i4⟩
  | old_see_toggle ha ht =>
    refine ⟨fun hm' => ?_, fun hm' => ?_, fun hm' => ?_, fun hm' => ?_, fun hm' => ?_⟩ <;>
      simp_all
  | old_clear_active ha =>
    refine ⟨fun hm' => ?_, fun hm' => ?_, fun hm' => ?_, fun hm' => ?_, fun hm' => ?_⟩ <;>
      simp_all
  | old_clear_toggle ha =>
    refine ⟨fun hm' => ?_, fun hm' => ?_, fun hm' => ?_, fun hm' => ?_, fun hm' => ?_⟩ <;>
      simp_all

/-- The inductive invariant holds in every reachable state of the
kill-then-arm episode. -/
theorem sched_reachable_inv {s : SchedState} (h : SchedReachable s) : SchedInv s := by
  induction h with
  | init h0 =>
    obtain ⟨hm, ht, hcase⟩ := h0
    rcases hcase with ⟨ha, hact⟩ | ⟨ha, hact⟩ <;>
      exact ⟨fun _ => ⟨ht, fun _ => by simp_all, fun _ => by simp_all⟩,
        fun h1 => by simp_all, fun h2 => by simp_all,
        fun h3 => by simp_all, fun h4 => by simp_all⟩
  | step _ hstep ih => exact sched_inv_step ih hstep

/-- Claim C3: at most one Cue Scheduler thread is active at a time — in
every reachable interleaving of the kill-then-arm episode with the
previous scheduler thread, the arming call leaves its busy-wait (`m3`) and
activates the new scheduler (`m4`) only once the previous thread has
exited. -/
theorem scheduler_at_most_one (s : SchedState) (h : SchedReachable s)
    (hm : s.m = .m3 ∨ s.m = .m4) : s.a = .exited := by
  have hi := sched_reachable_inv h
  rcases hm with hm | hm
  · exact hi.2.2.2.1 hm
  · exact hi.2.2.2.2 hm

/-- Witness for C3: a concrete reachable state with the new scheduler
spawned, obtained by stepping the episode from an exited previous
thread. -/
theorem scheduler_at_most_one_check :
    (SchedState.mk false true .m4 .exited).a = .exited := by
  apply scheduler_at_most_one
  · have h0 : SchedReachable (SchedState.mk false false .m0 .exited) :=
      SchedReachable.init ⟨rfl, rfl, Or.inr ⟨rfl, rfl⟩⟩
    have h1 : SchedReachable (SchedState.mk false false .m2 .exited) :=
      SchedReachable.step h0 (SchedStep.kill_seen_inactive rfl rfl)
    have h2 : SchedReachable (SchedState.mk false false .m3 .exited) :=
      SchedReachable.step h1 (SchedStep.arm_pass rfl rfl)
    exact SchedReachable.step h2 (SchedStep.arm_activate rfl)
  · exact Or.inr rfl

/-- Entry `c` of the all-off sweep is an off actuation for pin `c`. -/
theorem all_off_getElem (pins c : ℕ) (hc : c < pins) :
    (all_off pins)[c]? = some { channel := (c : ℤ), light_type := .off } := by
  unfold all_off
  rw [List.getElem?_map, List.getElem?_range hc]
  rfl

/-- The all-off sweep has one entry per pin. -/
theorem all_off_length (pins : ℕ) : (all_off pins).length = pins := by
  simp [all_off]

/-- Every entry of the all-off sweep is an off actuation. -/
theorem all_off_light_type {pins j : ℕ} {act : Actuation}
    (h : (all_off pins)[j]? = some act) : act.light_type = .off := by
  unfold all_off at h
  rw [List.getElem?_map] at h
  cases hr : (List.range pins)[j]? with
  | none => rw [hr] at h; cases h
  | some v => rw [hr] at h; cases h; rfl

/-- A run whose first tick observes the reset request opens its actuation
trace with the all-off sweep. -/
theorem runLights_reset_trace (pins ms : ℕ) (rest : List (Bool × ℕ)) (ld : List ChannelData) :
    ∃ tail : List Actuation,
      (runLights pins ((true, ms) :: rest) ld).2 = all_off pins ++ tail := by
  refine ⟨(fireAll (castI32ofU64 ms) (resetChannels ld)).2 ++
    (runLights pins rest (fireAll (castI32ofU64 ms) (resetChannels ld)).1).2, ?_⟩
  simp [runLights, lightIteration, List.append_assoc]

/-- Claim C4: seeking to time zero requests a scheduler reset; once the
running scheduler observes the request, every channel-group cursor is
rewound to 0, and from the observing tick onward every pin receives an off
actuation positioned before every on actuation for that pin. -/
theorem seek_zero_resets_lights :
    (∀ s t, set_position s 0 = some t → t.light_thread_reset = true) ∧
    (∀ ld, ∀ cd ∈ resetChannels ld, cd.index = 0) ∧
    (∀ (pins ms : ℕ) (rest : List (Bool × ℕ)) (ld : List ChannelData) (c : ℕ), c < pins →
      ∃ i : ℕ, (runLights pins ((true, ms) :: rest) ld).2[i]? =
          some { channel := (c : ℤ), light_type := .off } ∧
        ∀ (j : ℕ) (act : Actuation), (runLights pins ((true, ms) :: rest) ld).2[j]? = some act →
          act.channel = (c : ℤ) → act.light_type = .on → i < j) := by
  refine ⟨?_, ?_, ?_⟩
  · intro s t h
    obtain ⟨u, hu, ht⟩ := Option.map_eq_some'.mp h
    subst ht
    rfl
  · intro ld cd hcd
    simp only [resetChannels, List.mem_map] at hcd
    obtain ⟨cd0, _, hback⟩ := hcd
    subst hback
    rfl
  · intro pins ms rest ld c hc
    obtain ⟨tail, htr⟩ := runLights_reset_trace pins ms rest ld
    have hclen : c < (all_off pins).length := by rw [all_off_length]; exact hc
    refine ⟨c, ?_, ?_⟩
    · rw [htr, List.getElem?_append, if_pos hclen]
      exact all_off_getElem pins c hc
    · intro j act hj hch hon
      by_contra hij
      push_neg at hij
      have hjlen : j < (all_off pins).length := by rw [all_off_length] at *; omega
      rw [htr, List.getElem?_append, if_pos hjlen] at hj
      have hoff := all_off_light_type hj
      rw [hon] at hoff
      exact LightType.noConfusion hoff

/-- Witness for C4: the state `set_position exPlayer 0` produces carries
the reset request, and the reset handling rewinds the concrete group
`exGroupMoved` to cursor 0. -/
theorem seek_zero_resets_lights_check :
    exSeek.light_thread_reset = true ∧ exGroup.index = 0 :=
  ⟨seek_zero_resets_lights.1 exPlayer exSeek rfl,
   seek_zero_resets_lights.2.1 [exGroupMoved] exGroup (by decide)⟩

end OpenLights
